import Mathlib

/-
Verification development for the OOPS trading-simulation toolkit
(src/engine.py).  The Python code is shallowly embedded: Python floats
are modelled by ℚ (every numeric literal and arithmetic result appearing
in the engine — multiples of 0.5 at magnitudes up to 10^5 — is an exact
dyadic rational, represented exactly by IEEE binary64, so ℚ is a faithful
model on the states the engine reaches); Python strings by String;
Python dicts by association lists; raised exceptions by Except.
Wall-clock timestamps (datetime.now) and the memory-address order_id
(id(order)) are not modelled: no verified property reads them.
-/

namespace OOPS

section
/- Batteries marks the rational operations irreducible for the
elaborator; the kernel unfolds them regardless, and making them locally
semireducible lets `decide` evaluate concrete ledger arithmetic. -/
attribute [local semireducible] Rat.add Rat.sub Rat.mul Rat.inv

/-- Python str.upper (ASCII case map, applied per character). -/
def pyUpper (s : String) : String := String.mk (s.data.map Char.toUpper)

/-- Python str.lower (ASCII case map, applied per character). -/
def pyLower (s : String) : String := String.mk (s.data.map Char.toLower)

/-- Dynamic class of an order object: MarketOrder or LimitOrder
(engine.py lines 128-145).  A plain TradeOrder instance has no execute
method in the source and is never submitted to a broker, so only the two
executable subclasses are modelled; cancel (line 119) is inherited and
does not inspect the class. -/
inductive OrderKind where
  | market : OrderKind
  | limit : OrderKind
deriving DecidableEq, Repr

/-- TradeOrder (engine.py lines 108-125): symbol and side are upper-cased
and order_type lower-cased at construction; status starts at "pending".
The construction-time wall-clock timestamp is not modelled. -/
structure TradeOrder where
  symbol : String
  side : String
  quantity : ℚ
  order_type : String
  price : Option ℚ
  status : String
  kind : OrderKind
deriving DecidableEq, Repr

/-- TradeOrder.__init__ (engine.py lines 109-117). -/
def mkTradeOrder (symbol side : String) (quantity : ℚ) (order_type : String)
    (price : Option ℚ) (kind : OrderKind) : TradeOrder :=
  { symbol := pyUpper symbol
    side := pyUpper side
    quantity := quantity
    order_type := pyLower order_type
    price := price
    status := "pending"
    kind := kind }

/-- MarketOrder.__init__ (engine.py lines 129-130). -/
def mkMarketOrder (symbol side : String) (quantity : ℚ) : TradeOrder :=
  mkTradeOrder symbol side quantity "market" none OrderKind.market

/-- LimitOrder.__init__ (engine.py lines 138-139): the limit price is
stored in the price field. -/
def mkLimitOrder (symbol side : String) (quantity : ℚ) (limit_price : ℚ) : TradeOrder :=
  mkTradeOrder symbol side quantity "limit" (some limit_price) OrderKind.limit

/-- TradeOrder.cancel (engine.py lines 119-121): pending becomes
cancelled, any other status is left untouched; never raises. -/
def TradeOrder.cancel (o : TradeOrder) : TradeOrder :=
  if o.status = "pending" then { o with status := "cancelled" } else o

/-- execute(market_price), dispatching on the dynamic class.
MarketOrder.execute (engine.py lines 132-134) unconditionally stores the
price and sets status to "filled".  LimitOrder.execute (lines 141-145)
fills iff (BUY and market_price ≤ limit) or (SELL and market_price ≥
limit), else leaves the order untouched.  A LimitOrder always carries
some limit price by construction, so the none branch is unreachable for
constructed orders. -/
def TradeOrder.execute (o : TradeOrder) (market_price : ℚ) : TradeOrder :=
  match o.kind with
  | OrderKind.market => { o with price := some market_price, status := "filled" }
  | OrderKind.limit =>
      match o.price with
      | some limit_price =>
          if o.side = "BUY" ∧ market_price ≤ limit_price then
            { o with status := "filled" }
          else if o.side = "SELL" ∧ market_price ≥ limit_price then
            { o with status := "filled" }
          else o
      | none => o

/-- OrderReceipt (engine.py lines 148-157).  order_id (id(order), a
memory address) is not modelled; the timestamp is the caller-supplied
string. -/
structure OrderReceipt where
  symbol : String
  side : String
  original_quantity : ℚ
  executed_quantity : ℚ
  executed_price : Option ℚ
  timestamp : String
  status : String
deriving DecidableEq, Repr

/-- MockBrokerConnector state (engine.py lines 177-182).  positions is
the Python dict symbol → net quantity, modelled as an association list
with first-match lookup. -/
structure MockBrokerConnector where
  cash_balance : ℚ
  positions : List (String × ℚ)
  order_history : List TradeOrder
  current_market_price : ℚ
deriving DecidableEq, Repr

/-- MockBrokerConnector.__init__ (engine.py lines 178-182). -/
def MockBrokerConnector.init : MockBrokerConnector :=
  { cash_balance := 100000
    positions := []
    order_history := []
    current_market_price := 100 }

/-- positions.get(symbol, 0): dict lookup with default 0 (engine.py
lines 199 and 203). -/
def posGet (ps : List (String × ℚ)) (s : String) : ℚ :=
  (ps.lookup s).getD 0

/-- positions[symbol] = v: dict update, replacing an existing binding in
place or appending a new one. -/
def posSet : List (String × ℚ) → String → ℚ → List (String × ℚ)
  | [], s, v => [(s, v)]
  | (k, w) :: rest, s, v =>
      if k = s then (k, v) :: rest else (k, w) :: posSet rest s v

/-- MockBrokerConnector.submitOrder (engine.py lines 190-215): execute
the order at the broker's current market price, append it to
order_history, update cash and positions together when (and only when)
the post-execute status is "filled" with side BUY or SELL, and build a
receipt from the post-execute order.  Returns the new broker state, the
mutated order, and the receipt.  A filled order always carries some
price (MarketOrder.execute stores one; a LimitOrder has its limit from
construction), so the getD default is never read on reachable states;
the receipt's freshly generated wall-clock timestamp is modelled as "". -/
def submitOrder (b : MockBrokerConnector) (o : TradeOrder) :
    MockBrokerConnector × TradeOrder × OrderReceipt :=
  let o2 := o.execute b.current_market_price
  let hist := b.order_history ++ [o2]
  let b2 :=
    if o2.status = "filled" then
      if o2.side = "BUY" then
        { b with
          cash_balance := b.cash_balance - o2.price.getD 0 * o2.quantity
          positions := posSet b.positions o2.symbol (posGet b.positions o2.symbol + o2.quantity)
          order_history := hist }
      else if o2.side = "SELL" then
        { b with
          cash_balance := b.cash_balance + o2.price.getD 0 * o2.quantity
          positions := posSet b.positions o2.symbol (posGet b.positions o2.symbol - o2.quantity)
          order_history := hist }
      else { b with order_history := hist }
    else { b with order_history := hist }
  let receipt : OrderReceipt :=
    { symbol := pyUpper o2.symbol
      side := pyUpper o2.side
      original_quantity := o2.quantity
      executed_quantity := if o2.status = "filled" then o2.quantity else 0
      executed_price := if o2.status = "filled" then o2.price else none
      timestamp := ""
      status := o2.status }
  (b2, o2, receipt)

/-- Calendar date as parsed by datetime.strptime(s, "%Y-%m-%d")
(engine.py lines 22-23); only ordering matters to the engine, and
datetime comparison is lexicographic on (year, month, day). -/
structure PyDate where
  year : ℕ
  month : ℕ
  day : ℕ
deriving DecidableEq, Repr

/-- Python datetime strict comparison, lexicographic. -/
def PyDate.ltb (a b : PyDate) : Bool :=
  a.year < b.year ||
    (a.year == b.year &&
      (a.month < b.month || (a.month == b.month && a.day < b.day)))

/-- Python datetime non-strict comparison. -/
def PyDate.leb (a b : PyDate) : Bool :=
  a == b || PyDate.ltb a b

/-- The fixed list of allowed frequency codes (engine.py line 33). -/
def valid_frequencies : List String :=
  ["1m", "2m", "5m", "15m", "30m", "60m", "90m", "1h", "1d", "5d", "1wk", "1mo", "3mo"]

/-- MarketDataQuery fields after a successful construction (engine.py
lines 12-27); start_date and end_date are already parsed dates. -/
structure MarketDataQuery where
  symbol : String
  time_frame : String
  start_date : PyDate
  end_date : PyDate
  frequency : String
  source : String
deriving DecidableEq, Repr

/-- MarketDataQuery.__init__ plus _validate (engine.py lines 13-36) on
already-parsed dates: raise ValueError when start_date > end_date, then
when the frequency is not one of the 13 allowed codes; otherwise return
the constructed query.  The source argument is not validated. -/
def mkMarketDataQuery (symbol time_frame : String) (start_date end_date : PyDate)
    (frequency : String) (source : String) : Except String MarketDataQuery :=
  if PyDate.ltb end_date start_date then
    Except.error "Start date must be before end date"
  else if frequency ∉ valid_frequencies then
    Except.error "Frequency must be one of the valid frequencies"
  else
    Except.ok
      { symbol := symbol
        time_frame := time_frame
        start_date := start_date
        end_date := end_date
        frequency := frequency
        source := source }

/-- The frequency-to-pandas-alias dict of fetch (engine.py lines 41-53). -/
def freq_map : List (String × String) :=
  [("1m", "T"), ("2m", "2T"), ("5m", "5T"), ("15m", "15T"), ("30m", "30T"),
   ("60m", "60T"), ("90m", "90T"), ("1h", "H"), ("1d", "D"), ("5d", "5D"),
   ("1wk", "W"), ("1mo", "MS"), ("3mo", "3MS")]

/-- freq_map.get(self.frequency): dict lookup returning None on a
missing key (engine.py line 54). -/
def freqLookup (f : String) : Option String :=
  freq_map.lookup f

/-- The empty-range fallback of fetch (engine.py lines 59-60): when
pd.date_range returned no dates and start_date ≤ end_date, use the
single-element sequence [start_date]. -/
def applyFallback (start_date end_date : PyDate) (dates : List PyDate) : List PyDate :=
  if dates.length == 0 && PyDate.leb start_date end_date then [start_date] else dates

/-- The source == "test" branch of MarketDataQuery.fetch (engine.py
lines 39-65).  pd.date_range is an external library call (the spec
treats date-range generation as an opaque collaborator), so it is passed
in as the dateRange argument; the branch looks up the pandas alias for
the frequency (raising when the lookup yields nothing or an empty,
i.e. falsy, string), generates the dates with the fallback above, and
pairs them with prices 100 + i*0.5.  The yahoo and unknown-source
branches call the external provider or raise and are outside the claims
verified here. -/
def fetchTest (dateRange : PyDate → PyDate → String → List PyDate)
    (q : MarketDataQuery) : Except String (List PyDate × List ℚ) :=
  match freqLookup q.frequency with
  | none => Except.error ("Test source does not support frequency: " ++ q.frequency)
  | some pd_freq =>
      if pd_freq = "" then
        Except.error ("Test source does not support frequency: " ++ q.frequency)
      else
        let dates := applyFallback q.start_date q.end_date (dateRange q.start_date q.end_date pd_freq)
        let prices := (List.range dates.length).map (fun i : ℕ => 100 + (i : ℚ) * (1 / 2))
        Except.ok (dates, prices)

/-- Daily calendar generation, used only to instantiate the dateRange
argument in witnesses: day numbers start..end as distinct dates. -/
def dailyDates (startDay count : ℕ) : List PyDate :=
  (List.range count).map (fun i => PyDate.mk 2023 1 (startDay + i))

/-- One observable call on an order object: cancel() or
execute(market_price). -/
inductive OrderOp where
  | cancelOp : OrderOp
  | executeOp : ℚ → OrderOp
deriving DecidableEq, Repr

/-- Apply one call to an order. -/
def applyOp (o : TradeOrder) : OrderOp → TradeOrder
  | OrderOp.cancelOp => o.cancel
  | OrderOp.executeOp p => o.execute p

/-- Apply a sequence of cancel/execute calls, left to right. -/
def applyOps (o : TradeOrder) (ops : List OrderOp) : TradeOrder :=
  ops.foldl applyOp o

theorem execute_fill_or_unchanged (o : TradeOrder) (p : ℚ) :
    (o.execute p).status = "filled" ∨ o.execute p = o := by
  obtain ⟨sym, sd, qty, ot, pr, st, k⟩ := o
  cases k with
  | market => exact Or.inl rfl
  | limit =>
      cases pr with
      | none => exact Or.inr rfl
      | some L =>
          by_cases h1 : sd = "BUY" ∧ p ≤ L
          · exact Or.inl (by simp [TradeOrder.execute, h1])
          · by_cases h2 : sd = "SELL" ∧ p ≥ L
            · exact Or.inl (by simp [TradeOrder.execute, h1, h2])
            · exact Or.inr (by simp [TradeOrder.execute, h1, h2])

theorem execute_fields (o : TradeOrder) (p : ℚ) :
    (o.execute p).symbol = o.symbol ∧ (o.execute p).side = o.side ∧
    (o.execute p).quantity = o.quantity ∧ (o.execute p).order_type = o.order_type ∧
    (o.execute p).kind = o.kind := by
  obtain ⟨sym, sd, qty, ot, pr, st, k⟩ := o
  cases k with
  | market => exact ⟨rfl, rfl, rfl, rfl, rfl⟩
  | limit =>
      cases pr with
      | none => exact ⟨rfl, rfl, rfl, rfl, rfl⟩
      | some L =>
          by_cases h1 : sd = "BUY" ∧ p ≤ L
          · simp [TradeOrder.execute, h1]
          · by_cases h2 : sd = "SELL" ∧ p ≥ L
            · simp [TradeOrder.execute, h1, h2]
            · simp [TradeOrder.execute, h1, h2]

theorem execute_filled_of_filled (o : TradeOrder) (p : ℚ) (h : o.status = "filled") :
    (o.execute p).status = "filled" := by
  rcases execute_fill_or_unchanged o p with h2 | h2
  · exact h2
  · rw [h2, h]

theorem cancel_of_not_pending (o : TradeOrder) (h : o.status ≠ "pending") :
    o.cancel = o := by
  simp [TradeOrder.cancel, h]

/-- C9: cancel() is total (the embedding is a function, mirroring that the
source raises nothing): from status "pending" it moves the order to
"cancelled" and changes no other field; from any other status — in
particular "filled" and "cancelled" — it returns the order unchanged. -/
theorem cancel_state_machine (o : TradeOrder) :
    (o.status = "pending" →
      o.cancel.status = "cancelled" ∧ o.cancel.symbol = o.symbol ∧
      o.cancel.side = o.side ∧ o.cancel.quantity = o.quantity ∧
      o.cancel.order_type = o.order_type ∧ o.cancel.price = o.price ∧
      o.cancel.kind = o.kind) ∧
    (o.status = "filled" ∨ o.status = "cancelled" → o.cancel = o) := by
  constructor
  · intro h
    simp [TradeOrder.cancel, h]
  · intro h
    apply cancel_of_not_pending
    rcases h with h | h <;> simp [h]

/-- C2: a LimitOrder (kind limit, stored limit price L) on execute(p)
becomes filled when the side condition holds (BUY and p ≤ L, or SELL and
p ≥ L) and is returned completely unchanged when it does not, for all
rational p and L. -/
theorem limit_execute_iff (o : TradeOrder) (L p : ℚ)
    (hk : o.kind = OrderKind.limit) (hp : o.price = some L) :
    ((o.side = "BUY" →
      (p ≤ L → (o.execute p).status = "filled") ∧ (¬ p ≤ L → o.execute p = o)) ∧
     (o.side = "SELL" →
      (L ≤ p → (o.execute p).status = "filled") ∧ (¬ L ≤ p → o.execute p = o))) := by
  obtain ⟨sym, sd, qty, ot, pr, st, k⟩ := o
  simp only at hk hp
  subst hk hp
  constructor
  · intro hs
    subst hs
    constructor
    · intro hle
      simp [TradeOrder.execute, hle]
    · intro hnle
      simp [TradeOrder.execute, hnle]
  · intro hs
    subst hs
    constructor
    · intro hge
      simp [TradeOrder.execute, hge, ge_iff_le]
    · intro hnge
      simp [TradeOrder.execute, hnge, ge_iff_le]

theorem limit_execute_iff_witness :
    (((mkLimitOrder "AAPL" "buy" 2 100).execute 90).status = "filled") ∧
    ((mkLimitOrder "AAPL" "buy" 2 100).execute 101 = mkLimitOrder "AAPL" "buy" 2 100) := by
  constructor
  · exact ((limit_execute_iff (mkLimitOrder "AAPL" "buy" 2 100) 100 90
      (by decide) (by decide)).1 (by decide)).1 (by decide)
  · exact ((limit_execute_iff (mkLimitOrder "AAPL" "buy" 2 100) 100 101
      (by decide) (by decide)).1 (by decide)).2 (by decide)

/-- C6: executing a MarketOrder through any non-empty sequence of prices
ends with status "filled" and price equal to the last price passed,
whatever the status and price were before. -/
theorem market_execute_foldl (o : TradeOrder) (ps : List ℚ)
    (hk : o.kind = OrderKind.market) (hne : ps ≠ []) :
    (ps.foldl TradeOrder.execute o).status = "filled" ∧
    (ps.foldl TradeOrder.execute o).price = some (ps.getLastD 0) := by
  induction ps generalizing o with
  | nil => exact absurd rfl hne
  | cons p rest ih =>
      cases rest with
      | nil =>
          obtain ⟨sym, sd, qty, ot, pr, st, k⟩ := o
          simp only at hk
          subst hk
          exact ⟨rfl, rfl⟩
      | cons p2 rest2 =>
          have hk2 : (o.execute p).kind = OrderKind.market :=
            (execute_fields o p).2.2.2.2.trans hk
          have := ih (o.execute p) hk2 (by simp)
          simpa [List.foldl_cons, List.getLastD_cons] using this

theorem market_execute_foldl_witness :
    (([101, 102] : List ℚ).foldl TradeOrder.execute (mkMarketOrder "AAPL" "BUY" 10)).status = "filled" ∧
    (([101, 102] : List ℚ).foldl TradeOrder.execute (mkMarketOrder "AAPL" "BUY" 10)).price = some (([101, 102] : List ℚ).getLastD 0) :=
  market_execute_foldl (mkMarketOrder "AAPL" "BUY" 10) [101, 102] (by decide) (by decide)

/-- C3 counterexample: a cancelled MarketOrder is moved back out of the
cancelled state by execute(), which unconditionally sets status
"filled" — so cancelled is not a terminal state of the order state
machine. -/
theorem cancelled_not_terminal_cex :
    ((mkMarketOrder "AAPL" "BUY" 10).cancel.status = "cancelled") ∧
    (((mkMarketOrder "AAPL" "BUY" 10).cancel.execute 100).status = "filled") := by
  constructor
  · rfl
  · rfl

/-- C3 amended: filled is terminal — once an order's status is "filled"
no sequence of cancel()/execute() calls moves it to another status — and
cancel() alone never moves an order out of "cancelled"; but execute()
can move a cancelled order to "filled" (unconditionally for a
MarketOrder, when the limit condition holds for a LimitOrder), so
cancelled is terminal only with respect to cancel(). -/
theorem filled_terminal :
    (∀ (o : TradeOrder) (ops : List OrderOp), o.status = "filled" →
      (applyOps o ops).status = "filled") ∧
    (∀ o : TradeOrder, o.status = "cancelled" → o.cancel.status = "cancelled") := by
  constructor
  · intro o ops
    induction ops generalizing o with
    | nil => intro h; exact h
    | cons op rest ih =>
        intro h
        have h2 : (applyOp o op).status = "filled" := by
          cases op with
          | cancelOp =>
              have : o.cancel = o := cancel_of_not_pending o (by rw [h]; decide)
              simpa [applyOp, this] using h
          | executeOp p => exact execute_filled_of_filled o p h
        simpa [applyOps, List.foldl_cons] using ih (applyOp o op) h2
  · intro o h
    have : o.cancel = o := cancel_of_not_pending o (by rw [h]; decide)
    rw [this, h]

theorem submitOrder_order (b : MockBrokerConnector) (o : TradeOrder) :
    (submitOrder b o).2.1 = o.execute b.current_market_price := rfl

theorem submitOrder_receipt_status (b : MockBrokerConnector) (o : TradeOrder) :
    (submitOrder b o).2.2.status = (o.execute b.current_market_price).status := rfl

theorem submitOrder_receipt_executed_quantity (b : MockBrokerConnector) (o : TradeOrder) :
    (submitOrder b o).2.2.executed_quantity =
      (if (o.execute b.current_market_price).status = "filled"
        then (o.execute b.current_market_price).quantity else 0) := rfl

theorem submitOrder_receipt_executed_price (b : MockBrokerConnector) (o : TradeOrder) :
    (submitOrder b o).2.2.executed_price =
      (if (o.execute b.current_market_price).status = "filled"
        then (o.execute b.current_market_price).price else none) := rfl

theorem submitOrder_history (b : MockBrokerConnector) (o : TradeOrder) :
    (submitOrder b o).1.order_history =
      b.order_history ++ [o.execute b.current_market_price] := by
  simp only [submitOrder]
  split_ifs <;> rfl

theorem submitOrder_not_filled_ledger (b : MockBrokerConnector) (o : TradeOrder)
    (h : (o.execute b.current_market_price).status ≠ "filled") :
    (submitOrder b o).1.cash_balance = b.cash_balance ∧
    (submitOrder b o).1.positions = b.positions := by
  simp only [submitOrder]
  rw [if_neg h]
  exact ⟨rfl, rfl⟩

theorem submitOrder_filled_buy_ledger (b : MockBrokerConnector) (o : TradeOrder)
    (h1 : (o.execute b.current_market_price).status = "filled")
    (h2 : (o.execute b.current_market_price).side = "BUY") :
    (submitOrder b o).1.cash_balance =
      b.cash_balance -
        (o.execute b.current_market_price).price.getD 0 *
          (o.execute b.current_market_price).quantity ∧
    (submitOrder b o).1.positions =
      posSet b.positions (o.execute b.current_market_price).symbol
        (posGet b.positions (o.execute b.current_market_price).symbol +
          (o.execute b.current_market_price).quantity) := by
  simp only [submitOrder]
  rw [if_pos h1, if_pos h2]
  exact ⟨rfl, rfl⟩

theorem submitOrder_filled_sell_ledger (b : MockBrokerConnector) (o : TradeOrder)
    (h1 : (o.execute b.current_market_price).status = "filled")
    (h2 : (o.execute b.current_market_price).side ≠ "BUY")
    (h3 : (o.execute b.current_market_price).side = "SELL") :
    (submitOrder b o).1.cash_balance =
      b.cash_balance +
        (o.execute b.current_market_price).price.getD 0 *
          (o.execute b.current_market_price).quantity ∧
    (submitOrder b o).1.positions =
      posSet b.positions (o.execute b.current_market_price).symbol
        (posGet b.positions (o.execute b.current_market_price).symbol -
          (o.execute b.current_market_price).quantity) := by
  simp only [submitOrder]
  rw [if_pos h1, if_neg h2, if_pos h3]
  exact ⟨rfl, rfl⟩

theorem submitOrder_filled_other_ledger (b : MockBrokerConnector) (o : TradeOrder)
    (h1 : (o.execute b.current_market_price).status = "filled")
    (h2 : (o.execute b.current_market_price).side ≠ "BUY")
    (h3 : (o.execute b.current_market_price).side ≠ "SELL") :
    (submitOrder b o).1.cash_balance = b.cash_balance ∧
    (submitOrder b o).1.positions = b.positions := by
  simp only [submitOrder]
  rw [if_pos h1, if_neg h2, if_neg h3]
  exact ⟨rfl, rfl⟩

theorem posGet_posSet_self (ps : List (String × ℚ)) (s : String) (v : ℚ) :
    posGet (posSet ps s v) s = v := by
  induction ps with
  | nil => simp [posGet, posSet, List.lookup]
  | cons kv rest ih =>
      obtain ⟨k, w⟩ := kv
      by_cases h : k = s
      · subst h
        simp [posGet, posSet, List.lookup]
      · have hbe : (s == k) = false := beq_eq_false_iff_ne.mpr (Ne.symm h)
        simpa [posGet, posSet, List.lookup, h, hbe] using ih

theorem submitOrder_ledger_cases (b : MockBrokerConnector) (o : TradeOrder) :
    ((submitOrder b o).2.1.status ≠ "filled" →
      (submitOrder b o).1.cash_balance = b.cash_balance ∧
      (submitOrder b o).1.positions = b.positions) ∧
    ((submitOrder b o).2.1.status = "filled" →
      ∀ p : ℚ, (submitOrder b o).2.1.price = some p →
      (((submitOrder b o).2.1.side = "BUY" →
        (submitOrder b o).1.cash_balance = b.cash_balance - p * o.quantity ∧
        (submitOrder b o).1.positions =
          posSet b.positions (submitOrder b o).2.1.symbol
            (posGet b.positions (submitOrder b o).2.1.symbol + o.quantity)) ∧
       ((submitOrder b o).2.1.side = "SELL" → (submitOrder b o).2.1.side ≠ "BUY" →
        (submitOrder b o).1.cash_balance = b.cash_balance + p * o.quantity ∧
        (submitOrder b o).1.positions =
          posSet b.positions (submitOrder b o).2.1.symbol
            (posGet b.positions (submitOrder b o).2.1.symbol - o.quantity)) ∧
       ((submitOrder b o).2.1.side ≠ "BUY" → (submitOrder b o).2.1.side ≠ "SELL" →
        (submitOrder b o).1.cash_balance = b.cash_balance ∧
        (submitOrder b o).1.positions = b.positions))) := by
  have hq : (o.execute b.current_market_price).quantity = o.quantity :=
    (execute_fields o b.current_market_price).2.2.1
  constructor
  · exact fun h => submitOrder_not_filled_ledger b o h
  · intro hst p hpr
    have hgd : (o.execute b.current_market_price).price.getD 0 = p := by
      rw [show (o.execute b.current_market_price).price = some p from hpr]
      rfl
    refine ⟨?_, ?_, ?_⟩
    · intro hside
      have h := submitOrder_filled_buy_ledger b o hst hside
      rwa [hgd, hq] at h
    · intro hside hnb
      have h := submitOrder_filled_sell_ledger b o hst hnb hside
      rwa [hgd, hq] at h
    · intro hnb hns
      exact submitOrder_filled_other_ledger b o hst hnb hns

/-- C4 amended: in every submitOrder call, cash_balance and positions
change together or not at all — a call whose order does not end with
status "filled" leaves both untouched, and a call whose order ends
"filled" (with side BUY or SELL, price p) performs exactly the one joint
update cash ∓ p*quantity, positions ± quantity.  The update is keyed on
the order's final status being "filled", not on a pending→filled
transition happening in that call: re-submitting an already-filled order
applies the update again. -/
theorem ledger_joint_update (b : MockBrokerConnector) (o : TradeOrder) :
    ((submitOrder b o).2.1.status ≠ "filled" →
      (submitOrder b o).1.cash_balance = b.cash_balance ∧
      (submitOrder b o).1.positions = b.positions) ∧
    ((submitOrder b o).2.1.status = "filled" →
      ∀ p : ℚ, (submitOrder b o).2.1.price = some p →
      (((submitOrder b o).2.1.side = "BUY" →
        (submitOrder b o).1.cash_balance = b.cash_balance - p * o.quantity ∧
        (submitOrder b o).1.positions =
          posSet b.positions (submitOrder b o).2.1.symbol
            (posGet b.positions (submitOrder b o).2.1.symbol + o.quantity)) ∧
       ((submitOrder b o).2.1.side = "SELL" → (submitOrder b o).2.1.side ≠ "BUY" →
        (submitOrder b o).1.cash_balance = b.cash_balance + p * o.quantity ∧
        (submitOrder b o).1.positions =
          posSet b.positions (submitOrder b o).2.1.symbol
            (posGet b.positions (submitOrder b o).2.1.symbol - o.quantity)) ∧
       ((submitOrder b o).2.1.side ≠ "BUY" → (submitOrder b o).2.1.side ≠ "SELL" →
        (submitOrder b o).1.cash_balance = b.cash_balance ∧
        (submitOrder b o).1.positions = b.positions))) :=
  submitOrder_ledger_cases b o

/-- C1: on a fresh MockBrokerConnector (cash 100000, empty positions,
market price 100), any order whose submitOrder ends with status "filled"
and price p moves cash by p*quantity (down for BUY, up for SELL) and
sets positions[symbol] to ±quantity (the absent key counting as 0); in
particular a market BUY of 10 gives cash 99000 and position 10, and a
market SELL of 5 gives cash 100500 and position -5. -/
theorem submit_fresh_fill_ledger :
    (∀ (o : TradeOrder) (p : ℚ),
      (submitOrder MockBrokerConnector.init o).2.1.status = "filled" →
      (submitOrder MockBrokerConnector.init o).2.1.price = some p →
      (((submitOrder MockBrokerConnector.init o).2.1.side = "BUY" →
        (submitOrder MockBrokerConnector.init o).1.cash_balance = 100000 - p * o.quantity ∧
        posGet (submitOrder MockBrokerConnector.init o).1.positions
          (submitOrder MockBrokerConnector.init o).2.1.symbol = o.quantity) ∧
       ((submitOrder MockBrokerConnector.init o).2.1.side = "SELL" →
        (submitOrder MockBrokerConnector.init o).1.cash_balance = 100000 + p * o.quantity ∧
        posGet (submitOrder MockBrokerConnector.init o).1.positions
          (submitOrder MockBrokerConnector.init o).2.1.symbol = -o.quantity))) ∧
    ((submitOrder MockBrokerConnector.init (mkMarketOrder "AAPL" "BUY" 10)).1.cash_balance = 99000 ∧
     posGet (submitOrder MockBrokerConnector.init (mkMarketOrder "AAPL" "BUY" 10)).1.positions "AAPL" = 10 ∧
     (submitOrder MockBrokerConnector.init (mkMarketOrder "AAPL" "BUY" 10)).2.2.status = "filled" ∧
     (submitOrder MockBrokerConnector.init (mkMarketOrder "AAPL" "BUY" 10)).2.2.executed_quantity = 10) ∧
    ((submitOrder MockBrokerConnector.init (mkMarketOrder "AAPL" "SELL" 5)).1.cash_balance = 100500 ∧
     posGet (submitOrder MockBrokerConnector.init (mkMarketOrder "AAPL" "SELL" 5)).1.positions "AAPL" = -5) := by
  refine ⟨?_, by decide, by decide⟩
  intro o p hst hpr
  have hmain := (submitOrder_ledger_cases MockBrokerConnector.init o).2 hst p hpr
  constructor
  · intro hside
    obtain ⟨hc, hps⟩ := hmain.1 hside
    refine ⟨hc, ?_⟩
    rw [hps]
    have h0 : posGet MockBrokerConnector.init.positions
        (submitOrder MockBrokerConnector.init o).2.1.symbol = 0 := rfl
    rw [h0, posGet_posSet_self, zero_add]
  · intro hside
    by_cases hb : (submitOrder MockBrokerConnector.init o).2.1.side = "BUY"
    · exact absurd (hb.symm.trans hside) (by decide)
    · obtain ⟨hc, hps⟩ := (hmain.2.1 hside hb)
      refine ⟨hc, ?_⟩
      rw [hps]
      have h0 : posGet MockBrokerConnector.init.positions
          (submitOrder MockBrokerConnector.init o).2.1.symbol = 0 := rfl
      rw [h0, posGet_posSet_self, zero_sub]

/-- C5 counterexample: submitting an already-cancelled LimitOrder whose
limit is not met ends with status "cancelled", so the receipt's status
is "cancelled", not "pending" as the claim states for every
non-filled submission. -/
theorem receipt_status_cex :
    ((submitOrder MockBrokerConnector.init ((mkLimitOrder "AAPL" "BUY" 1 50).cancel)).2.1.status ≠ "filled") ∧
    ((submitOrder MockBrokerConnector.init ((mkLimitOrder "AAPL" "BUY" 1 50).cancel)).2.2.status = "cancelled") ∧
    ((submitOrder MockBrokerConnector.init ((mkLimitOrder "AAPL" "BUY" 1 50).cancel)).2.2.status ≠ "pending") := by
  refine ⟨by decide, rfl, by decide⟩

/-- C5 amended: a submitOrder call whose order does not end "filled"
leaves cash_balance and positions completely unchanged, still appends
the order to order_history, and returns a receipt with
executed_quantity 0, executed_price none, and status equal to the
order's final status — which is "pending" whenever the submitted order
was pending (it is "cancelled" when an already-cancelled order is
submitted). -/
theorem submit_not_filled_frame (b : MockBrokerConnector) (o : TradeOrder)
    (h : (submitOrder b o).2.1.status ≠ "filled") :
    (submitOrder b o).1.cash_balance = b.cash_balance ∧
    (submitOrder b o).1.positions = b.positions ∧
    (submitOrder b o).1.order_history = b.order_history ++ [(submitOrder b o).2.1] ∧
    (submitOrder b o).2.2.executed_quantity = 0 ∧
    (submitOrder b o).2.2.executed_price = none ∧
    (submitOrder b o).2.2.status = (submitOrder b o).2.1.status ∧
    (o.status = "pending" → (submitOrder b o).2.2.status = "pending") := by
  have hst : (o.execute b.current_market_price).status ≠ "filled" := h
  obtain ⟨hc, hps⟩ := submitOrder_not_filled_ledger b o hst
  refine ⟨hc, hps, submitOrder_history b o, ?_, ?_, rfl, ?_⟩
  · rw [submitOrder_receipt_executed_quantity, if_neg hst]
  · rw [submitOrder_receipt_executed_price, if_neg hst]
  · intro hpend
    rcases execute_fill_or_unchanged o b.current_market_price with h2 | h2
    · exact absurd h2 hst
    · rw [submitOrder_receipt_status, h2, hpend]

theorem submit_not_filled_frame_witness :
    (submitOrder MockBrokerConnector.init (mkLimitOrder "AAPL" "BUY" 1 50)).1.cash_balance =
      MockBrokerConnector.init.cash_balance ∧
    (submitOrder MockBrokerConnector.init (mkLimitOrder "AAPL" "BUY" 1 50)).1.positions =
      MockBrokerConnector.init.positions ∧
    (submitOrder MockBrokerConnector.init (mkLimitOrder "AAPL" "BUY" 1 50)).1.order_history =
      MockBrokerConnector.init.order_history ++
        [(submitOrder MockBrokerConnector.init (mkLimitOrder "AAPL" "BUY" 1 50)).2.1] ∧
    (submitOrder MockBrokerConnector.init (mkLimitOrder "AAPL" "BUY" 1 50)).2.2.executed_quantity = 0 ∧
    (submitOrder MockBrokerConnector.init (mkLimitOrder "AAPL" "BUY" 1 50)).2.2.executed_price = none ∧
    (submitOrder MockBrokerConnector.init (mkLimitOrder "AAPL" "BUY" 1 50)).2.2.status =
      (submitOrder MockBrokerConnector.init (mkLimitOrder "AAPL" "BUY" 1 50)).2.1.status ∧
    ((mkLimitOrder "AAPL" "BUY" 1 50).status = "pending" →
      (submitOrder MockBrokerConnector.init (mkLimitOrder "AAPL" "BUY" 1 50)).2.2.status = "pending") :=
  submit_not_filled_frame MockBrokerConnector.init (mkLimitOrder "AAPL" "BUY" 1 50) (by decide)

theorem pydate_leb_eq_not_ltb (a b : PyDate) : PyDate.leb a b = !PyDate.ltb b a := by
  obtain ⟨y1, m1, d1⟩ := a
  obtain ⟨y2, m2, d2⟩ := b
  rw [Bool.eq_iff_iff]
  simp only [PyDate.leb, PyDate.ltb, Bool.or_eq_true, Bool.and_eq_true, Bool.not_eq_true',
    Bool.or_eq_false_iff, Bool.and_eq_false_iff, beq_iff_eq, beq_eq_false_iff_ne,
    PyDate.mk.injEq, decide_eq_true_eq, decide_eq_false_iff_not, ne_eq]
  omega

/-- C7: construction of a MarketDataQuery (on already-parsed dates)
succeeds exactly when start_date ≤ end_date and the frequency is one of
the 13 allowed codes, whatever the source; otherwise it raises a
ValueError; and on success the query carries the given fields. -/
theorem marketDataQuery_validation (symbol time_frame : String) (s e : PyDate)
    (f src : String) :
    ((∃ q, mkMarketDataQuery symbol time_frame s e f src = Except.ok q) ↔
      (PyDate.leb s e = true ∧ f ∈ valid_frequencies)) ∧
    ((∃ msg, mkMarketDataQuery symbol time_frame s e f src = Except.error msg) ↔
      (PyDate.ltb e s = true ∨ f ∉ valid_frequencies)) ∧
    (∀ q, mkMarketDataQuery symbol time_frame s e f src = Except.ok q →
      q = MarketDataQuery.mk symbol time_frame s e f src) := by
  have hle : PyDate.leb s e = !PyDate.ltb e s := pydate_leb_eq_not_ltb s e
  by_cases h1 : PyDate.ltb e s = true
  · refine ⟨?_, ?_, ?_⟩
    · constructor
      · intro ⟨q, hq⟩
        simp [mkMarketDataQuery, h1] at hq
      · intro ⟨hl, _⟩
        rw [hle, h1] at hl
        exact absurd hl (by decide)
    · exact ⟨fun _ => Or.inl h1,
        fun _ => ⟨"Start date must be before end date", by simp [mkMarketDataQuery, h1]⟩⟩
    · intro q hq
      simp [mkMarketDataQuery, h1] at hq
  · have h1f : PyDate.ltb e s = false := by
      cases hb : PyDate.ltb e s
      · rfl
      · exact absurd hb h1
    have hleT : PyDate.leb s e = true := by rw [hle, h1f]; rfl
    by_cases h2 : f ∈ valid_frequencies
    · refine ⟨?_, ?_, ?_⟩
      · exact ⟨fun _ => ⟨hleT, h2⟩,
        fun _ => ⟨MarketDataQuery.mk symbol time_frame s e f src,
          by simp [mkMarketDataQuery, h1f, h2]⟩⟩
      · constructor
        · intro ⟨msg, hmsg⟩
          simp [mkMarketDataQuery, h1f, h2] at hmsg
        · intro h
          rcases h with h | h
          · exact absurd h (by rw [h1f]; decide)
          · exact absurd h2 h
      · intro q hq
        simp only [mkMarketDataQuery, h1f, if_false, Bool.false_eq_true] at hq
        rw [if_neg (by simpa using h2)] at hq
        exact (Except.ok.injEq _ _).mp hq.symm |>.symm ▸ (by
          cases hq
          rfl)
    · refine ⟨?_, ?_, ?_⟩
      · constructor
        · intro ⟨q, hq⟩
          rw [show mkMarketDataQuery symbol time_frame s e f src =
            Except.error "Frequency must be one of the valid frequencies" from by
              simp [mkMarketDataQuery, h1f, h2]] at hq
          exact absurd hq (by simp)
        · intro ⟨_, hf⟩
          exact absurd hf h2
      · exact ⟨fun _ => Or.inr h2,
        fun _ => ⟨"Frequency must be one of the valid frequencies",
          by simp [mkMarketDataQuery, h1f, h2]⟩⟩
      · intro q hq
        rw [show mkMarketDataQuery symbol time_frame s e f src =
          Except.error "Frequency must be one of the valid frequencies" from by
            simp [mkMarketDataQuery, h1f, h2]] at hq
        exact absurd hq (by simp)

/-- C4 counterexample: submitting the same MarketOrder twice updates the
ledger twice — the second call starts with the order already "filled",
so no pending→filled transition happens in it, yet cash drops again from
99000 to 98000. -/
theorem ledger_double_update_cex :
    ((submitOrder MockBrokerConnector.init (mkMarketOrder "AAPL" "BUY" 10)).2.1.status = "filled") ∧
    ((submitOrder MockBrokerConnector.init (mkMarketOrder "AAPL" "BUY" 10)).1.cash_balance = 99000) ∧
    ((submitOrder (submitOrder MockBrokerConnector.init (mkMarketOrder "AAPL" "BUY" 10)).1
        (submitOrder MockBrokerConnector.init (mkMarketOrder "AAPL" "BUY" 10)).2.1).1.cash_balance = 98000) := by
  refine ⟨rfl, by decide, by decide⟩

theorem freqLookup_of_valid (f : String) (hf : f ∈ valid_frequencies) :
    ∃ a, freqLookup f = some a ∧ a ≠ "" := by
  fin_cases hf <;> exact ⟨_, rfl, by decide⟩

/-- C10: the freq_map dict of fetch() has exactly the validator's 13
frequency codes as keys, each mapped to a non-empty (truthy) pandas
alias, so on the test-source path of a construction-validated query the
lookup always succeeds and the unsupported-frequency ValueError is
unreachable: fetch returns a table. -/
theorem freq_map_covers_validator :
    (freq_map.map Prod.fst = valid_frequencies) ∧
    (∀ f, f ∈ valid_frequencies → ∃ a, freqLookup f = some a ∧ a ≠ "") ∧
    (∀ (dateRange : PyDate → PyDate → String → List PyDate) (q : MarketDataQuery),
      q.frequency ∈ valid_frequencies →
      ∃ r, fetchTest dateRange q = Except.ok r) := by
  refine ⟨rfl, freqLookup_of_valid, ?_⟩
  intro dateRange q hf
  obtain ⟨a, ha, hne⟩ := freqLookup_of_valid q.frequency hf
  refine ⟨(applyFallback q.start_date q.end_date (dateRange q.start_date q.end_date a),
    (List.range (applyFallback q.start_date q.end_date
      (dateRange q.start_date q.end_date a)).length).map (fun i : ℕ => 100 + (i : ℚ) * (1 / 2))), ?_⟩
  simp only [fetchTest, ha]
  rw [if_neg hne]

/-- C8: on the test-source path, a query whose frequency passed
validation yields an ordered table (dates, prices) where the dates are
the calendar sequence the external date-range generator produced for
[start_date, end_date] at the mapped frequency (falling back to the
single point [start_date] when that sequence is empty and start_date ≤
end_date), prices has one entry per date with price[i] = 100 + i*0.5, so
price[0] = 100 and the prices are strictly increasing. -/
theorem fetchTest_prices (dateRange : PyDate → PyDate → String → List PyDate)
    (q : MarketDataQuery) (_hsrc : q.source = "test") (hf : q.frequency ∈ valid_frequencies) :
    ∃ dates prices, fetchTest dateRange q = Except.ok (dates, prices) ∧
      dates = applyFallback q.start_date q.end_date
        (dateRange q.start_date q.end_date ((freqLookup q.frequency).getD "")) ∧
      prices.length = dates.length ∧
      (∀ i, i < prices.length → prices.getD i 0 = 100 + (i : ℚ) * (1 / 2)) ∧
      (0 < prices.length → prices.getD 0 0 = 100) ∧
      (∀ i j, i < j → j < prices.length → prices.getD i 0 < prices.getD j 0) ∧
      (dateRange q.start_date q.end_date ((freqLookup q.frequency).getD "") = [] →
        PyDate.leb q.start_date q.end_date = true → dates = [q.start_date]) := by
  obtain ⟨a, ha, hne⟩ := freqLookup_of_valid q.frequency hf
  have hgd : (freqLookup q.frequency).getD "" = a := by rw [ha]; rfl
  refine ⟨applyFallback q.start_date q.end_date (dateRange q.start_date q.end_date a),
    (List.range (applyFallback q.start_date q.end_date
      (dateRange q.start_date q.end_date a)).length).map (fun i : ℕ => 100 + (i : ℚ) * (1 / 2)),
    ?_, ?_, ?_, ?_, ?_, ?_, ?_⟩
  · simp only [fetchTest, ha]
    rw [if_neg hne]
  · rw [hgd]
  · rw [List.length_map, List.length_range]
  · intro i hi
    rw [List.length_map, List.length_range] at hi
    rw [List.getD_eq_getElem _ _ (by simpa using hi)]
    simp
  · intro h0
    rw [List.length_map, List.length_range] at h0
    rw [List.getD_eq_getElem _ _ (by simpa using h0)]
    simp
  · intro i j hij hj
    rw [List.length_map, List.length_range] at hj
    rw [List.getD_eq_getElem _ _ (by simpa using lt_of_lt_of_le hij (Nat.le_of_lt_succ (Nat.lt_succ_of_lt hj))),
      List.getD_eq_getElem _ _ (by simpa using hj)]
    simp only [List.getElem_map, List.getElem_range]
    have : (i : ℚ) < (j : ℚ) := by exact_mod_cast hij
    have hhalf : (0 : ℚ) < 1 / 2 := by norm_num
    linarith [mul_lt_mul_of_pos_right this hhalf]
  · intro hemp hle
    rw [hgd] at hemp
    simp [applyFallback, hemp, hle]

theorem fetchTest_prices_witness :
    ∃ dates prices,
      fetchTest (fun _ _ _ => dailyDates 1 5)
          (MarketDataQuery.mk "SYN" "tf" (PyDate.mk 2023 1 1) (PyDate.mk 2023 1 5) "1d" "test") =
        Except.ok (dates, prices) ∧
      prices.length = 5 ∧ prices.getD 0 0 = 100 ∧ prices.getD 3 0 < prices.getD 4 0 := by
  obtain ⟨dates, prices, hok, hdates, hlen, _hform, h0, hmono, _hfb⟩ :=
    fetchTest_prices (fun _ _ _ => dailyDates 1 5)
      (MarketDataQuery.mk "SYN" "tf" (PyDate.mk 2023 1 1) (PyDate.mk 2023 1 5) "1d" "test")
      rfl (by decide)
  have hd5 : dates.length = 5 := by rw [hdates]; rfl
  have hp5 : prices.length = 5 := by rw [hlen, hd5]
  exact ⟨dates, prices, hok, hp5,
    h0 (by rw [hp5]; decide),
    hmono 3 4 (by decide) (by rw [hp5]; decide)⟩

end

end OOPS
